import Mathlib

/-!
Verification development for the Water-Data repository.

The repository ingests tab-delimited USGS water-level rows, validates and
parses each row into a timestamp (field 2, format YYYY-MM-DD HH:MM) and a
depth (field 4, a float), optionally filters the accumulated data by
calendar year, downsamples by a stride, and fits a degree-1 least-squares
trend line.

This file shallowly embeds the pipeline of `water_data_plotter.py`
(class WaterDataPlotterYEAR: `load_data`, `filter_data_by_year`,
`reduce_resolution`, and the trend computation inside `plot_data`).
Strings are processed over their character lists; Python floats are
modelled as exact rationals; fallible operations (IndexError, a non-200
HTTP status, numpy failures) are modelled with Option / Except.
-/

namespace WaterData

/-! ### Character-list utilities (models of the Python string operations used) -/

/-- Splits a character list at every occurrence of the separator character,
keeping empty segments, exactly like Python `str.split(sep)` for a
one-character separator: `"a--b"` gives `["a", "", "b"]`. -/
def splitChar (c : Char) : List Char → List (List Char)
  | [] => [[]]
  | x :: xs =>
    if x = c then [] :: splitChar c xs
    else
      match splitChar c xs with
      | g :: gs => (x :: g) :: gs
      | [] => [[x]]

/-- Accumulates the decimal value of a digit run; fails on any non-digit. -/
def digitsVal : List Char → ℕ → Option ℕ
  | [], acc => some acc
  | c :: cs, acc =>
    if c.isDigit then digitsVal cs (acc * 10 + (c.toNat - 48)) else none

/-- Value of a non-empty all-digit character list, as matched by one `\d...`
group of Python strptime or one digit run of a float literal. -/
def parseNatDigits (l : List Char) : Option ℕ :=
  match l with
  | [] => none
  | _ => digitsVal l 0

/-- ASCII whitespace stripped by Python `float()` around a literal. -/
def pyIsSpace (c : Char) : Bool :=
  c = ' ' || c = '\t' || c = '\n' || c = '\r' || c = '\x0b' || c = '\x0c'

/-- Strips leading and trailing whitespace, like Python `str.strip()`. -/
def trimWs (l : List Char) : List Char :=
  ((l.dropWhile pyIsSpace).reverse.dropWhile pyIsSpace).reverse

/-- Consumes one optional leading sign; returns (isNegative, rest). -/
def parseSign : List Char → Bool × List Char
  | '-' :: rest => (true, rest)
  | '+' :: rest => (false, rest)
  | l => (false, l)

/-! ### Timestamps: model of `datetime.strptime(s, "%Y-%m-%d %H:%M")` -/

/-- A parsed `datetime` value as produced by
`datetime.strptime(datetime_str, "%Y-%m-%d %H:%M")` (no timezone;
seconds are always zero under this format and are omitted). -/
structure PyDateTime where
  year : ℕ
  month : ℕ
  day : ℕ
  hour : ℕ
  minute : ℕ
deriving DecidableEq

/-- Gregorian leap-year rule used by Python `datetime` validation. -/
def isLeapYear (y : ℕ) : Bool :=
  y % 4 = 0 && (y % 100 ≠ 0 || y % 400 = 0)

/-- Number of days of a month, as validated by the `datetime` constructor. -/
def daysInMonth (y m : ℕ) : ℕ :=
  if m = 2 then (if isLeapYear y then 29 else 28)
  else if m = 4 || m = 6 || m = 9 || m = 11 then 30
  else 31

/-- Model of `datetime.strptime(s, "%Y-%m-%d %H:%M")`: `%Y` is exactly four
digits, `%m` `%d` `%H` `%M` are one or two digits within their calendar
ranges, the whole string must be consumed, and the resulting date must be a
valid `datetime` (day within the month, year at least `MINYEAR = 1`).
On any mismatch strptime raises `ValueError`, modelled as `none`.
(Python additionally lets the literal space of the format match a run of
whitespace; the data format at hand never produces such rows.) -/
def strptime_YmdHM (l : List Char) : Option PyDateTime :=
  match splitChar ' ' l with
  | [datePart, timePart] =>
    match splitChar '-' datePart, splitChar ':' timePart with
    | [ys, ms, ds], [hs, mins] =>
      match parseNatDigits ys, parseNatDigits ms, parseNatDigits ds,
            parseNatDigits hs, parseNatDigits mins with
      | some y, some m, some d, some h, some mi =>
        if ys.length = 4 && ms.length ≤ 2 && ds.length ≤ 2 &&
           hs.length ≤ 2 && mins.length ≤ 2 &&
           1 ≤ y && 1 ≤ m && m ≤ 12 && 1 ≤ d && d ≤ daysInMonth y m &&
           h ≤ 23 && mi ≤ 59
        then some ⟨y, m, d, h, mi⟩ else none
      | _, _, _, _, _ => none
    | _, _ => none
  | _ => none

/-! ### Depths: model of Python `float(s)` on decimal literals -/

/-- Unsigned decimal mantissa: `digits`, `digits.`, `.digits` or
`digits.digits`. Returns the pair (numerator, number of fractional
digits); the mantissa value is numerator / 10 ^ fractional-digits. -/
def parseUDec (l : List Char) : Option (ℕ × ℕ) :=
  match splitChar '.' l with
  | [ip] => (parseNatDigits ip).map (fun n => (n, 0))
  | [ip, fp] =>
    if ip.isEmpty && fp.isEmpty then none
    else
      match (if ip.isEmpty then some 0 else parseNatDigits ip),
            (if fp.isEmpty then some 0 else parseNatDigits fp) with
      | some a, some b => some (a * 10 ^ fp.length + b, fp.length)
      | _, _ => none
  | _ => none

/-- Model of Python `float(s)` on finite decimal literals, exact over ℚ:
surrounding whitespace is stripped, an optional sign, a decimal mantissa
and an optional `e`/`E` exponent are accepted; the exact value
sign * mantissa * 10 ^ exponent is assembled as one rational. The special
values `inf`/`nan`, underscore digit separators and non-ASCII digits are
not representable in ℚ and are not modelled; no claim and no row of the
rdb data format at hand involves them. -/
def pyFloat (s : List Char) : Option ℚ :=
  let t := trimWs s
  let (neg, t2) := parseSign t
  let t3 := t2.map (fun c => if c = 'E' then 'e' else c)
  match splitChar 'e' t3 with
  | [m] =>
    (parseUDec m).map (fun p =>
      mkRat (if neg then -(p.1 : ℤ) else (p.1 : ℤ)) (10 ^ p.2))
  | [m, ex] =>
    let (eneg, ed) := parseSign ex
    match parseUDec m, parseNatDigits ed with
    | some p, some ev =>
      let n : ℤ := if neg then -(p.1 : ℤ) else (p.1 : ℤ)
      some (if eneg then mkRat n (10 ^ p.2 * 10 ^ ev)
            else mkRat (n * 10 ^ ev) (10 ^ p.2))
    | _, _ => none
  | _ => none

/-! ### The `load_data` row loop (water_data_plotter.py lines 24-58) -/

/-- The two accumulator lists of `WaterDataPlotterYEAR`: `self.dates` and
`self.depths`, appended to independently by `load_data`. -/
structure LoadState where
  dates : List PyDateTime
  depths : List ℚ
deriving DecidableEq

/-- Tests `row[0].startswith("#")`. -/
def startsWithHash (s : String) : Bool :=
  match s.data with
  | '#' :: _ => true
  | _ => false

/-- Body of one `load_data` loop iteration after the comment/header check
(lines 39-58): extract `row[2]` and `row[4]` with `""` defaults, append a
parsed datetime when the field contains a space and strptime succeeds,
and independently append a parsed float when the depth field is non-empty
and `float` succeeds; each failure only prints a diagnostic. -/
def processRowOk (st : LoadState) (row : List String) : LoadState :=
  let datetime_str := row.getD 2 ""
  let depth := row.getD 4 ""
  let st1 :=
    if datetime_str.data.contains ' ' then
      match strptime_YmdHM datetime_str.data with
      | some dt => { st with dates := st.dates ++ [dt] }
      | none => st
    else st
  if depth.data.isEmpty then st1
  else
    match pyFloat depth.data with
    | some q => { st1 with depths := st1.depths ++ [q] }
    | none => st1

/-- One full loop iteration on a row that has a first field: skip the row
when `row[0]` starts with `#` or equals `agency_cd`, otherwise run the
parsing body. -/
def stepRow (st : LoadState) (row : List String) : LoadState :=
  match row with
  | [] => st
  | f0 :: _ =>
    if startsWithHash f0 ∨ f0 = "agency_cd" then st else processRowOk st row

/-- One loop iteration including the failure mode: on an empty row the
check `row[0].startswith("#")` raises an unhandled IndexError (`none`). -/
def processRow (st : LoadState) (row : List String) : Option LoadState :=
  match row with
  | [] => none
  | _ :: _ => some (stepRow st row)

/-- The `for row in reader` loop of `load_data`. An `Except.error` carries
the accumulator state reached when the IndexError escaped; `Except.ok`
carries the final state. -/
def loadRows (st : LoadState) : List (List String) → Except LoadState LoadState
  | [] => .ok st
  | row :: rest =>
    match processRow st row with
    | none => .error st
    | some st2 => loadRows st2 rest

/-- `load_data` of `WaterDataPlotterYEAR` (lines 24-58): a status code
other than 200 raises before any row is read (`Except.error` with the
state untouched); otherwise the rows of the response body are processed
in order. -/
def load_data (status : ℕ) (rows : List (List String)) (st : LoadState) :
    Except LoadState LoadState :=
  if status ≠ 200 then .error st else loadRows st rows

/-! ### `filter_data_by_year` (water_data_plotter.py lines 60-64) -/

/-- The comprehension
`[self.depths[i] for i, date in enumerate(self.dates) if date.year == self.year]`
with the running `enumerate` index made explicit: each access `depths[i]`
out of range raises IndexError, modelled as `none`. -/
def filteredDepthsAux (depths : List ℚ) (y : ℕ) :
    List PyDateTime → ℕ → Option (List ℚ)
  | [], _ => some []
  | d :: ds, i =>
    if d.year == y then
      match depths.get? i with
      | none => none
      | some q => (filteredDepthsAux depths y ds (i + 1)).map (fun l => q :: l)
    else filteredDepthsAux depths y ds (i + 1)

/-- `filter_data_by_year`: the dates list is filtered by calendar year, and
the depths list is rebuilt by indexing `self.depths` at each matching
position of `self.dates`; `none` models the unhandled IndexError raised
when such a position is past the end of the depths list. -/
def filter_data_by_year (dates : List PyDateTime) (depths : List ℚ) (y : ℕ) :
    Option (List PyDateTime × List ℚ) :=
  match filteredDepthsAux depths y dates 0 with
  | none => none
  | some fdep => some (dates.filter (fun d => d.year == y), fdep)

/-- The subsequence of paired records whose timestamp falls in year `y`;
this is the Series-level reading of the year filter, used to state what
`filter_data_by_year` computes on aligned lists. -/
def recordFilter (s : List (PyDateTime × ℚ)) (y : ℕ) : List (PyDateTime × ℚ) :=
  s.filter (fun r => r.1.year == y)

/-! ### `reduce_resolution` (water_data_plotter.py lines 66-70) -/

/-- Python extended slicing `l[::n]` for a positive stride `n`: the
elements at positions 0, n, 2n, ... in order. -/
def sliceStride : List α → ℕ → List α
  | [], _ => []
  | x :: xs, n => x :: sliceStride (xs.drop (n - 1)) n
termination_by l _ => l.length
decreasing_by simp [List.length_drop]; omega

/-- `reduce_resolution`: `dates[::resolution]` and `depths[::resolution]`. -/
def reduce_resolution (dates : List PyDateTime) (depths : List ℚ)
    (resolution : ℕ) : List PyDateTime × List ℚ :=
  (sliceStride dates resolution, sliceStride depths resolution)

/-! ### Trend estimator: `np.polyfit(dates_numeric, depths_reduced, 1)`
(water_data_plotter.py lines 81-92), in exact arithmetic over ℚ -/

/-- Sum of the x coordinates of a point list. -/
def sX (pts : List (ℚ × ℚ)) : ℚ := (pts.map (fun p => p.1)).sum

/-- Sum of the y coordinates. -/
def sY (pts : List (ℚ × ℚ)) : ℚ := (pts.map (fun p => p.2)).sum

/-- Sum of the squared x coordinates. -/
def sXX (pts : List (ℚ × ℚ)) : ℚ := (pts.map (fun p => p.1 * p.1)).sum

/-- Sum of the products x * y. -/
def sXY (pts : List (ℚ × ℚ)) : ℚ := (pts.map (fun p => p.1 * p.2)).sum

/-- Determinant of the degree-1 normal equations,
n * sum x^2 - (sum x)^2; zero exactly when the fit is degenerate
(fewer than one point, or all x equal). -/
def lsqDenom (pts : List (ℚ × ℚ)) : ℚ :=
  (pts.length : ℚ) * sXX pts - sX pts * sX pts

/-- Sum of squared residuals of the line y = a x + b over the points. -/
def ssq (pts : List (ℚ × ℚ)) (a b : ℚ) : ℚ :=
  (pts.map (fun p => (p.2 - (a * p.1 + b)) ^ 2)).sum

/-- Model of `np.polyfit(x, y, 1)` as called in `plot_data`, in exact
rational arithmetic. On an empty input numpy raises
`TypeError: expected non-empty vector for x` (`none`). When the normal
equations are nonsingular the unique ordinary least-squares solution is
returned. When they are singular (all x equal to some c) numpy does NOT
raise: it emits a RankWarning and its column-scaled `lstsq` call returns
the minimum-norm solution (ybar / (2 c), ybar / 2) of the scaled system
for c different from 0; for c = 0 the column scaling divides by zero and
no finite fit is produced (`none`). -/
def polyfit1 (pts : List (ℚ × ℚ)) : Option (ℚ × ℚ) :=
  match pts with
  | [] => none
  | p :: _ =>
    if lsqDenom pts = 0 then
      if p.1 = 0 then none
      else some (sY pts / (pts.length : ℚ) / (2 * p.1),
                 sY pts / (pts.length : ℚ) / 2)
    else some (((pts.length : ℚ) * sXY pts - sX pts * sY pts) / lsqDenom pts,
               (sY pts * sXX pts - sX pts * sXY pts) / lsqDenom pts)

deriving instance DecidableEq for Except

/-! ### Theorems -/

/-- C1: the claim states that a row with a valid depth but an invalid
timestamp contributes nothing to either series, and that on the two given
rows the parser yields exactly one Record and nothing else. The code
violates this: timestamps and depths are appended by two independent
conditionals, so the second row ("bad-date", depth 13.0) still appends
13.0 to the depths list. Evaluating `load_data` on exactly those two rows
leaves dates = [2009-01-03T00:00] but depths = [12.5, 13.0]. The spec
itself calls this independent-append behaviour a latent defect of the
source. -/
theorem C1_two_rows_eval :
    load_data 200 [["USGS", "site", "2009-01-03 00:00", "P", "12.5"],
                   ["USGS", "site", "bad-date", "P", "13.0"]] ⟨[], []⟩
      = .ok ⟨[⟨2009, 1, 3, 0, 0⟩], [mkRat 25 2, 13]⟩ := by
  decide

/-- C2: the claim states that on fewer than 2 points, or on points all
sharing one timestamp, the trend estimator fails with a "Degenerate
Input" condition. The code has no such check: it calls `np.polyfit`
directly, which on such inputs only emits a RankWarning and returns the
minimum-norm least-squares fit. On the single point (1, 2.0) the fit
(1, 1) is returned, and on the two points (2, 1.0), (2, 3.0) sharing
timestamp 2 the fit (1/2, 1) is returned; neither fails. -/
theorem C2_degenerate_trend_eval :
    polyfit1 [((1 : ℚ), 2)] = some (1, 1)
      ∧ polyfit1 [((2 : ℚ), 1), (2, 3)] = some (1 / 2, 1) := by
  constructor <;> norm_num [polyfit1, lsqDenom, sX, sY, sXX, sXY]

/-- C3: the claim states that a non-comment row with fewer than 5 fields
appends nothing to either series, even when field 2 is a valid
space-containing timestamp. The code violates this: only fields past the
end of the row are defaulted to "", so a 3-field row whose field 2 is
"2009-01-03 00:00" still appends that timestamp to the dates list (the
depth field alone is treated as absent). -/
theorem C3_short_row_eval :
    processRow ⟨[], []⟩ ["a", "b", "2009-01-03 00:00"]
      = some ⟨[⟨2009, 1, 3, 0, 0⟩], []⟩ := by
  decide

/-- C5: an empty row (from a blank line) makes the comment check
`row[0].startswith("#")` raise an unhandled IndexError: the loop aborts
with the state reached after the rows before the empty row, and the rows
after it are never processed (the result does not depend on them). -/
theorem C5_empty_row_aborts (st : LoadState) (pre post : List (List String))
    (hpre : ∀ r ∈ pre, r ≠ []) :
    loadRows st pre = .ok (pre.foldl stepRow st)
      ∧ loadRows st (pre ++ [] :: post) = .error (pre.foldl stepRow st) := by
  induction pre generalizing st with
  | nil => exact ⟨rfl, rfl⟩
  | cons r rs ih =>
    have hr : r ≠ [] := hpre r (List.mem_cons_self r rs)
    cases r with
    | nil => exact absurd rfl hr
    | cons f0 rest =>
      have ih2 := ih (stepRow st (f0 :: rest))
        (fun x hx => hpre x (List.mem_cons_of_mem _ hx))
      simpa [loadRows, processRow] using ih2

/-- Witness for C5 at a concrete input: one comment row, then a blank
line, then a data row that is never reached. -/
theorem C5_witness :
    loadRows ⟨[], []⟩ [["#c"]] = .ok ([[ "#c" ]].foldl stepRow ⟨[], []⟩)
      ∧ loadRows ⟨[], []⟩ ([["#c"]] ++ [] :: [["USGS", "s", "2009-01-03 00:00", "P", "12.5"]])
          = .error ([[ "#c" ]].foldl stepRow ⟨[], []⟩) :=
  C5_empty_row_aborts ⟨[], []⟩ [["#c"]]
    [["USGS", "s", "2009-01-03 00:00", "P", "12.5"]] (by decide)

/-- C8: a non-200 HTTP status code makes `load_data` raise before any row
is parsed: the result is an error and the dates/depths series are exactly
the state they had before the call, whatever the body rows are. -/
theorem C8_non200_fatal (status : ℕ) (rows : List (List String))
    (st : LoadState) (h : status ≠ 200) :
    load_data status rows st = .error st := by
  simp [load_data, h]

/-- Witness for C8 at a concrete input: status 404 with a well-formed data
row and a fresh (empty) instance. -/
theorem C8_witness :
    load_data 404 [["USGS", "site", "2009-01-03 00:00", "P", "12.5"]] ⟨[], []⟩
      = .error ⟨[], []⟩ :=
  C8_non200_fatal 404 [["USGS", "site", "2009-01-03 00:00", "P", "12.5"]]
    ⟨[], []⟩ (by decide)

/-- C10: a non-empty row whose first field starts with '#' or equals
"agency_cd" is skipped: the loop iteration returns the state unchanged,
regardless of the remaining fields. -/
theorem C10_comment_header_skipped (st : LoadState) (f0 : String)
    (rest : List String)
    (h : startsWithHash f0 = true ∨ f0 = "agency_cd") :
    processRow st (f0 :: rest) = some st := by
  have hc : (startsWithHash f0 = true) ∨ f0 = "agency_cd" := h
  simp only [processRow, stepRow]
  rw [if_pos hc]

/-- Witness for C10 at a concrete input: a header row whose other fields
hold a valid timestamp and depth. -/
theorem C10_witness :
    processRow ⟨[], []⟩ ["agency_cd", "site", "2009-01-03 00:00", "P", "12.5"]
      = some ⟨[], []⟩ :=
  C10_comment_header_skipped ⟨[], []⟩ "agency_cd"
    ["site", "2009-01-03 00:00", "P", "12.5"] (Or.inr rfl)

/-- Characterization of the stride slice: element k of `l[::n]` is element
n * k of `l`. -/
theorem sliceStride_get (n : ℕ) (hn : 1 ≤ n) :
    ∀ (k : ℕ) (l : List α), (sliceStride l n).get? k = l.get? (n * k) := by
  intro k
  induction k with
  | zero =>
    intro l
    cases l with
    | nil => simp [sliceStride]
    | cons x xs => simp [sliceStride]
  | succ k ih =>
    intro l
    cases l with
    | nil => simp [sliceStride]
    | cons x xs =>
      rw [sliceStride]
      have h2 : n * (k + 1) = (n - 1 + n * k) + 1 := by
        rw [Nat.mul_succ]; omega
      rw [h2, List.get?_cons_succ, List.get?_cons_succ, ih,
        List.get?_drop]

/-- Stride 1 is the identity slice. -/
theorem sliceStride_one : ∀ (l : List α), sliceStride l 1 = l
  | [] => by simp [sliceStride]
  | x :: xs => by rw [sliceStride]; simp [sliceStride_one xs]

/-- A stride at least the length keeps only the first element. -/
theorem sliceStride_take_one (n : ℕ) :
    ∀ l : List α, l.length ≤ n → sliceStride l n = l.take 1
  | [], _ => by simp [sliceStride]
  | x :: xs, h => by
    rw [sliceStride, List.drop_eq_nil_of_le (by simp at h; omega)]
    simp [sliceStride]

/-- C7: for a stride n at least 1, `reduce_resolution` returns exactly the
records at positions 0, n, 2n, ... of both lists in original order (it is
a pure function of its input, hence deterministic and non-mutating); with
stride 1 it returns the input unchanged, and with stride at least the
length it returns only the first element. -/
theorem C7_downsampler (dates : List PyDateTime) (depths : List ℚ) (n : ℕ)
    (hn : 1 ≤ n) :
    (∀ k, (reduce_resolution dates depths n).1.get? k = dates.get? (n * k)
        ∧ (reduce_resolution dates depths n).2.get? k = depths.get? (n * k))
      ∧ (n = 1 → reduce_resolution dates depths n = (dates, depths))
      ∧ (dates.length ≤ n → depths.length ≤ n →
          reduce_resolution dates depths n = (dates.take 1, depths.take 1)) := by
  refine ⟨fun k => ⟨sliceStride_get n hn k dates, sliceStride_get n hn k depths⟩,
    ?_, ?_⟩
  · rintro rfl
    simp [reduce_resolution, sliceStride_one]
  · intro h1 h2
    simp [reduce_resolution, sliceStride_take_one n dates h1,
      sliceStride_take_one n depths h2]

/-- Witness for C7 at a concrete input: stride 2 over three records picks
positions 0 and 2; here element 1 of the reduced depths is element 2 of
the original depths. -/
theorem C7_witness :
    (reduce_resolution [⟨2009, 1, 1, 0, 0⟩, ⟨2009, 1, 2, 0, 0⟩, ⟨2009, 1, 3, 0, 0⟩]
        [1, 2, 3] 2).2.get? 1 = [(1 : ℚ), 2, 3].get? (2 * 1) :=
  ((C7_downsampler [⟨2009, 1, 1, 0, 0⟩, ⟨2009, 1, 2, 0, 0⟩, ⟨2009, 1, 3, 0, 0⟩]
    [1, 2, 3] 2 (by decide)).1 1).2

/-- An out-of-range depth access at any matching date position makes the
depth comprehension raise. -/
theorem filteredDepthsAux_oob (depths : List ℚ) (y : ℕ) :
    ∀ (dates : List PyDateTime) (base i : ℕ) (d : PyDateTime),
      dates.get? i = some d → d.year = y → depths.length ≤ base + i →
      filteredDepthsAux depths y dates base = none := by
  intro dates
  induction dates with
  | nil => intro base i d h; simp at h
  | cons dd ds ih =>
    intro base i d hget hy hlen
    cases i with
    | zero =>
      rw [List.get?_cons_zero, Option.some.injEq] at hget
      subst hget
      have hb : (dd.year == y) = true := by simp [hy]
      have hnone : depths.get? base = none :=
        List.get?_eq_none.mpr (by omega)
      rw [filteredDepthsAux, if_pos hb, hnone]
    | succ i =>
      rw [List.get?_cons_succ] at hget
      by_cases hb : (dd.year == y) = true
      · rw [filteredDepthsAux, if_pos hb]
        cases hq : depths.get? base with
        | none => rfl
        | some q => rw [ih (base + 1) i d hget hy (by omega)]; rfl
      · rw [filteredDepthsAux, if_neg hb]
        exact ih (base + 1) i d hget hy (by omega)

/-- C4: when the depths list is shorter than the dates list and some date
at an index past the end of the depths list matches the target year,
`filter_data_by_year` raises an unhandled IndexError instead of returning
a filtered Series. -/
theorem C4_misaligned_filter_raises (dates : List PyDateTime)
    (depths : List ℚ) (y i : ℕ) (d : PyDateTime)
    (hget : dates.get? i = some d) (hy : d.year = y)
    (hlen : depths.length ≤ i) :
    filter_data_by_year dates depths y = none := by
  rw [filter_data_by_year,
    filteredDepthsAux_oob depths y dates 0 i d hget hy (by omega)]

/-- Witness for C4 at a concrete input: one date of year 2009, an empty
depths list, target year 2009. -/
theorem C4_witness :
    filter_data_by_year [⟨2009, 1, 3, 0, 0⟩] [] 2009 = none :=
  C4_misaligned_filter_raises [⟨2009, 1, 3, 0, 0⟩] [] 2009 0
    ⟨2009, 1, 3, 0, 0⟩ rfl rfl (by decide)

/-- On aligned lists the depth comprehension succeeds and returns the
depths of exactly the year-matching records; stated with an explicit
prefix standing for the already-consumed positions of the enumerate
index. -/
theorem filteredDepthsAux_aligned (y : ℕ) :
    ∀ (dates : List PyDateTime) (qs pre : List ℚ), dates.length = qs.length →
      filteredDepthsAux (pre ++ qs) y dates pre.length
        = some ((recordFilter (dates.zip qs) y).map Prod.snd) := by
  intro dates
  induction dates with
  | nil => intro qs pre h; simp [filteredDepthsAux, recordFilter]
  | cons d ds ih =>
    intro qs pre hlen
    cases qs with
    | nil => simp at hlen
    | cons q qs2 =>
      have hget : (pre ++ q :: qs2).get? pre.length = some q := by
        rw [List.get?_append_right (le_refl _)]
        simp
      have hrec : pre ++ q :: qs2 = (pre ++ [q]) ++ qs2 := by simp
      have hlen1 : pre.length + 1 = (pre ++ [q]).length := by simp
      have htail := ih qs2 (pre ++ [q]) (by simpa using hlen)
      by_cases hb : (d.year == y) = true
      · rw [filteredDepthsAux, if_pos hb, hget, hrec, hlen1, htail]
        simp [recordFilter, hb]
      · rw [filteredDepthsAux, if_neg hb, hrec, hlen1, htail]
        simp [recordFilter, hb]

/-- On aligned lists the filtered dates equal the first components of the
year-matching record pairs. -/
theorem filter_fst_aligned (y : ℕ) :
    ∀ (dates : List PyDateTime) (qs : List ℚ), dates.length = qs.length →
      dates.filter (fun d => d.year == y)
        = (recordFilter (dates.zip qs) y).map Prod.fst := by
  intro dates
  induction dates with
  | nil => intro qs h; simp [recordFilter]
  | cons d ds ih =>
    intro qs hlen
    cases qs with
    | nil => simp at hlen
    | cons q qs2 =>
      have htail := ih qs2 (by simpa using hlen)
      by_cases hb : (d.year == y) = true
      · simp [recordFilter, hb, List.filter_cons] at htail ⊢
        exact htail
      · simp [recordFilter, hb, List.filter_cons] at htail ⊢
        exact htail

/-- On aligned lists `filter_data_by_year` succeeds and returns the
unzipped year-matching subsequence of the paired records. -/
theorem filter_data_by_year_aligned (dates : List PyDateTime)
    (depths : List ℚ) (y : ℕ) (hlen : dates.length = depths.length) :
    filter_data_by_year dates depths y
      = some ((recordFilter (dates.zip depths) y).map Prod.fst,
              (recordFilter (dates.zip depths) y).map Prod.snd) := by
  have h0 := filteredDepthsAux_aligned y dates depths [] hlen
  simp only [List.nil_append, List.length_nil] at h0
  rw [filter_data_by_year, h0, filter_fst_aligned y dates depths hlen]

/-- C6: on every aligned Series (equal-length dates and depths lists) and
every target year, `filter_data_by_year` returns (without error, and
without any side effect: it is a pure function) exactly the subsequence
of paired records whose timestamp's calendar year equals the target; the
result of filtering is a sublist of the input pairs; filtering is
idempotent; and an input with no matching record (in particular an empty
one) yields the empty Series rather than an error. -/
theorem C6_year_filter (dates : List PyDateTime) (depths : List ℚ) (y : ℕ)
    (hlen : dates.length = depths.length) :
    filter_data_by_year dates depths y
        = some ((recordFilter (dates.zip depths) y).map Prod.fst,
                (recordFilter (dates.zip depths) y).map Prod.snd)
      ∧ (recordFilter (dates.zip depths) y).Sublist (dates.zip depths)
      ∧ filter_data_by_year ((recordFilter (dates.zip depths) y).map Prod.fst)
            ((recordFilter (dates.zip depths) y).map Prod.snd) y
          = some ((recordFilter (dates.zip depths) y).map Prod.fst,
                  (recordFilter (dates.zip depths) y).map Prod.snd)
      ∧ ((∀ r ∈ dates.zip depths, ¬ r.1.year = y) →
          filter_data_by_year dates depths y = some ([], [])) := by
  refine ⟨filter_data_by_year_aligned dates depths y hlen,
    List.filter_sublist _, ?_, ?_⟩
  · have hzip : ((recordFilter (dates.zip depths) y).map Prod.fst).zip
        ((recordFilter (dates.zip depths) y).map Prod.snd)
        = recordFilter (dates.zip depths) y := by
      rw [← List.unzip_fst, ← List.unzip_snd, List.zip_unzip]
    have hFF : recordFilter (recordFilter (dates.zip depths) y) y
        = recordFilter (dates.zip depths) y := by
      simp only [recordFilter]
      refine List.filter_eq_self.mpr (fun r hr => ?_)
      have h3 := List.of_mem_filter hr
      exact h3
    have h2 := filter_data_by_year_aligned
      ((recordFilter (dates.zip depths) y).map Prod.fst)
      ((recordFilter (dates.zip depths) y).map Prod.snd) y (by simp)
    rw [hzip] at h2
    rw [h2, hFF]
  · intro hnone
    have hFnil : recordFilter (dates.zip depths) y = [] := by
      refine List.filter_eq_nil.mpr (fun r hr => ?_)
      simpa using hnone r hr
    rw [filter_data_by_year_aligned dates depths y hlen, hFnil]
    simp

/-- Witness for C6 at a concrete input: one record of year 2009 filtered
by 2009. -/
theorem C6_witness :
    filter_data_by_year [⟨2009, 1, 3, 0, 0⟩] [(5 : ℚ)] 2009
      = some ((recordFilter ([⟨2009, 1, 3, 0, 0⟩].zip [(5 : ℚ)]) 2009).map Prod.fst,
              (recordFilter ([⟨2009, 1, 3, 0, 0⟩].zip [(5 : ℚ)]) 2009).map Prod.snd) :=
  (C6_year_filter [⟨2009, 1, 3, 0, 0⟩] [(5 : ℚ)] 2009 rfl).1

/-- A sum of squares over a point list is nonnegative. -/
theorem sum_map_sq_nonneg (l : List (ℚ × ℚ)) (f : ℚ × ℚ → ℚ) :
    0 ≤ (l.map (fun p => f p ^ 2)).sum := by
  induction l with
  | nil => simp
  | cons p l ih =>
    simp only [List.map_cons, List.sum_cons]
    exact add_nonneg (sq_nonneg _) ih

/-- Expansion of the sum of squared residuals of one line around another:
the cross terms are the two normal-equation residues of the reference
line. -/
theorem ssq_expand (pts : List (ℚ × ℚ)) (a b a2 b2 : ℚ) :
    ssq pts a2 b2
      = ssq pts a b
        + 2 * ((a - a2) * (sXY pts - a * sXX pts - b * sX pts)
             + (b - b2) * (sY pts - a * sX pts - b * (pts.length : ℚ)))
        + (pts.map (fun p => ((a - a2) * p.1 + (b - b2)) ^ 2)).sum := by
  induction pts with
  | nil =>
    simp [ssq, sX, sY, sXX, sXY]
  | cons p pts ih =>
    simp only [ssq, sX, sY, sXX, sXY, List.map_cons, List.sum_cons,
      List.length_cons] at ih ⊢
    rw [ih]
    push_cast
    ring

/-- The closed-form degree-1 least-squares coefficients satisfy the two
normal equations when the system is nonsingular. -/
theorem normal_eqs (pts : List (ℚ × ℚ)) (hd : lsqDenom pts ≠ 0) :
    sXY pts - (((pts.length : ℚ) * sXY pts - sX pts * sY pts) / lsqDenom pts)
        * sXX pts
      - ((sY pts * sXX pts - sX pts * sXY pts) / lsqDenom pts) * sX pts = 0
  ∧ sY pts - (((pts.length : ℚ) * sXY pts - sX pts * sY pts) / lsqDenom pts)
        * sX pts
      - ((sY pts * sXX pts - sX pts * sXY pts) / lsqDenom pts)
        * (pts.length : ℚ) = 0 := by
  rw [lsqDenom] at hd ⊢
  constructor <;> field_simp <;> ring

/-- C9: whenever the normal equations are nonsingular, the pair returned
by the trend estimator minimizes the sum of squared residuals over all
lines (ordinary degree-1 least squares); and on the points (0, 1.0),
(1, 2.0), (2, 3.0) it returns slope 1 and intercept 1 exactly. -/
theorem C9_trend_least_squares :
    (∀ (pts : List (ℚ × ℚ)) (a b : ℚ), lsqDenom pts ≠ 0 →
        polyfit1 pts = some (a, b) →
        ∀ a2 b2 : ℚ, ssq pts a b ≤ ssq pts a2 b2)
  ∧ polyfit1 [((0 : ℚ), 1), (1, 2), (2, 3)] = some (1, 1) := by
  constructor
  · intro pts a b hd hfit a2 b2
    cases pts with
    | nil => simp [polyfit1] at hfit
    | cons p rest =>
      rw [polyfit1, if_neg hd, Option.some.injEq, Prod.mk.injEq] at hfit
      obtain ⟨ha, hb⟩ := hfit
      subst ha
      subst hb
      have hne := normal_eqs (p :: rest) hd
      rw [ssq_expand (p :: rest)
        (((((p :: rest).length : ℚ)) * sXY (p :: rest)
            - sX (p :: rest) * sY (p :: rest)) / lsqDenom (p :: rest))
        ((sY (p :: rest) * sXX (p :: rest)
            - sX (p :: rest) * sXY (p :: rest)) / lsqDenom (p :: rest))
        a2 b2, hne.1, hne.2]
      have hS := sum_map_sq_nonneg (p :: rest)
        (fun q => (((((p :: rest).length : ℚ)) * sXY (p :: rest)
            - sX (p :: rest) * sY (p :: rest)) / lsqDenom (p :: rest) - a2)
          * q.1
          + ((sY (p :: rest) * sXX (p :: rest)
            - sX (p :: rest) * sXY (p :: rest)) / lsqDenom (p :: rest) - b2))
      simp only at hS
      linarith
  · norm_num [polyfit1, lsqDenom, sX, sY, sXX, sXY]

/-- Witness for C9 at a concrete input: the fit (1, 1) on the three given
points has residual sum no larger than that of the line y = 2 x + 0. -/
theorem C9_witness :
    ssq [((0 : ℚ), 1), (1, 2), (2, 3)] 1 1
      ≤ ssq [((0 : ℚ), 1), (1, 2), (2, 3)] 2 0 :=
  C9_trend_least_squares.1 [((0 : ℚ), 1), (1, 2), (2, 3)] 1 1
    (by norm_num [lsqDenom, sX, sXX]) C9_trend_least_squares.2 2 0

end WaterData
